import Mathlib

/-!
Verification development for the scraper in `src/main_final.py`.

The Python program drives two crawl modes (a Sequential "maps" mode and a
Snapshot "justdial" mode) and persists extracted business records into
per-query SQLite tables, deduplicated on the `(name, address)` pair.

This file shallowly embeds the pure core of that program:
  * `normalize_table_name` — the query-to-table-identifier normalizer;
  * the per-record save operations `got_place_save` (maps mode,
    `MapsScraperGUI._got_place`) and `save_justdial_data`
    (`MapsScraperGUI.save_justdial_data`), with a table modelled as the
    list of its rows in insertion order;
  * the Sequential-mode crawl loop (`_got_links`, `start_scrape`,
    `_process_next_link`, `_on_load_finished`, `_got_place`);
  * the Snapshot-mode extraction pipeline (the page-level extraction
    script and `JustDialScraper.run`'s `process_results` callback), with
    the asynchronously-flipped `_is_running` flag modelled as the
    sequence of values it is observed to have at each loop check.

Strings are Lean `String`s; Python's `str.lower` is modelled on the ASCII
range (the only range that can survive the later `[^a-z0-9_]` strip).
-/

/-- ASCII case folding of one character, as Python's `str.lower` acts on
`A`–`Z`; other characters are left unchanged. -/
def pyLowerChar (c : Char) : Char :=
  if 'A' ≤ c ∧ c ≤ 'Z' then Char.ofNat (c.toNat + 32) else c

/-- The character class kept by `re.sub(r"[^a-z0-9_]", "", safe)`. -/
def isSafeChar (c : Char) : Bool :=
  (decide ('a' ≤ c) && decide (c ≤ 'z')) ||
    (decide ('0' ≤ c) && decide (c ≤ '9')) || c == '_'

/-- `normalize_table_name(keyword, location)` from `src/main_final.py`:
`f"{keyword}_{location}".lower().replace(" ", "_")` followed by
`re.sub(r"[^a-z0-9_]", "", safe)`. -/
def normalize_table_name (keyword location : String) : String :=
  String.mk ((((keyword.data ++ '_' :: location.data).map pyLowerChar).map
    (fun c => if c = ' ' then '_' else c)).filter isSafeChar)

/-- The underscore joining keyword and location survives lowering, the
space replacement and the unsafe-character strip, so it is always a
character of the produced identifier. -/
theorem underscore_mem_normalize (k l : String) :
    '_' ∈ (normalize_table_name k l).data := by
  have h1 : '_' ∈ k.data ++ '_' :: l.data := by simp
  have h2 : pyLowerChar '_' ∈ (k.data ++ '_' :: l.data).map pyLowerChar :=
    List.mem_map_of_mem pyLowerChar h1
  rw [show pyLowerChar '_' = '_' by decide] at h2
  have h3 : (fun c => if c = ' ' then '_' else c) '_' ∈
      ((k.data ++ '_' :: l.data).map pyLowerChar).map
        (fun c => if c = ' ' then '_' else c) :=
    List.mem_map_of_mem _ h2
  rw [show (fun c => if c = ' ' then '_' else c) '_' = '_' by decide] at h3
  exact List.mem_filter.mpr ⟨h3, by decide⟩

/-- Claim C2: for every keyword and location, `normalize_table_name` is
deterministic (equal inputs give equal outputs), every character of its
output lies in the class `[a-z0-9_]` (in particular the output is
lower-case), and `normalize_table_name "Cafes" "Pune" = "cafes_pune"`. -/
theorem C2_normalize_charset_and_example :
    (∀ k₁ l₁ k₂ l₂ : String, k₁ = k₂ → l₁ = l₂ →
      normalize_table_name k₁ l₁ = normalize_table_name k₂ l₂) ∧
    (∀ k l : String, ∀ c ∈ (normalize_table_name k l).data,
      isSafeChar c = true) ∧
    normalize_table_name "Cafes" "Pune" = "cafes_pune" := by
  refine ⟨?_, ?_, ?_⟩
  · rintro k₁ l₁ k₂ l₂ rfl rfl
    rfl
  · intro k l c hc
    exact (List.mem_filter.mp hc).2
  · decide

/-- Witness for C2 at the concrete input `("Cafes", "Pune")`: the
determinism conjunct and the membership conjunct applied at a concrete
character of the concrete output. -/
theorem C2_normalize_witness :
    normalize_table_name "Cafes" "Pune" = normalize_table_name "Cafes" "Pune" ∧
    isSafeChar 'c' = true :=
  ⟨C2_normalize_charset_and_example.1 "Cafes" "Pune" "Cafes" "Pune" rfl rfl,
   C2_normalize_charset_and_example.2.1 "Cafes" "Pune" 'c' (by decide)⟩

/-- Claim C10, counterexample: there are no non-empty inputs at all for
which `normalize_table_name` returns the empty string — the underscore
the function itself inserts between keyword and location always survives
the strip, so the output is never empty. -/
theorem C10_counterexample :
    ¬ ∃ k l : String, k ≠ "" ∧ l ≠ "" ∧ normalize_table_name k l = "" := by
  rintro ⟨k, l, -, -, h⟩
  have hm := underscore_mem_normalize k l
  rw [h] at hm
  exact absurd hm (by decide)

/-- Claim C10 as amended: the produced identifier always contains the
joining underscore and is therefore non-empty for every input (even empty
ones); for inputs made only of characters outside `[a-z0-9_ ]` the
identifier degenerates to underscores alone, e.g.
`normalize_table_name "!!!" "???" = "_"`, but it is never empty. -/
theorem C10_amended_never_empty :
    (∀ k l : String, '_' ∈ (normalize_table_name k l).data ∧
      normalize_table_name k l ≠ "") ∧
    normalize_table_name "!!!" "???" = "_" := by
  refine ⟨fun k l => ⟨underscore_mem_normalize k l, ?_⟩, by decide⟩
  intro h
  have hm := underscore_mem_normalize k l
  rw [h] at hm
  exact absurd hm (by decide)

/-! ## Deduplication store (maps mode and justdial mode)

A table is modelled as the list of its rows in insertion order.  The two
save operations mirror `MapsScraperGUI._got_place` and
`MapsScraperGUI.save_justdial_data`: each first runs
`SELECT id FROM {tname} WHERE name = ? AND address = ?` (modelled by an
existence check on the `(name, address)` key), inserts only when the
lookup is empty, and logs `"Saved: <name>"` or
`"Skipped duplicate: <name>"` accordingly. -/

/-- Fields returned by the maps-mode extraction script in
`_extract_place` (each defaults to `""` in the page script). -/
structure PlaceData where
  name : String
  address : String
  phone : String
  website : String
deriving DecidableEq

/-- One row of a maps-mode table (schema from `ensure_table`, maps
branch, minus the auto-increment surrogate `id`). -/
structure MapsRow where
  name : String
  address : String
  phone : String
  website : String
  keyword : String
  location : String
  scraped_at : String
deriving DecidableEq

/-- The duplicate lookup of `_got_place`:
`SELECT id FROM {tname} WHERE name = ? AND address = ?`. -/
def mapsExists (t : List MapsRow) (n a : String) : Bool :=
  t.any fun r => r.name == n && r.address == a

/-- `MapsScraperGUI._got_place`, restricted to its table effect: look up
the `(name, address)` key, insert the new row only when absent, and
return the updated table, whether an insert happened, and the logged
status line. -/
def got_place_save (kw loc ts : String) (t : List MapsRow) (d : PlaceData) :
    List MapsRow × Bool × String :=
  if mapsExists t d.name d.address then
    (t, false, "Skipped duplicate: " ++ d.name)
  else
    (t ++ [⟨d.name, d.address, d.phone, d.website, kw, loc, ts⟩],
      true, "Saved: " ++ d.name)

/-- The record payload carried by `data_signal` in snapshot mode
(`data_with_meta` built in `process_results`). -/
structure JDData where
  id : String
  name : String
  address : String
  phone : String
  website : String
  website_status : String
  rating : String
  votes : String
  scraped_at : String
deriving DecidableEq

/-- One row of a justdial-mode table (schema from `ensure_table`,
justdial branch). -/
structure JDRow where
  id : String
  name : String
  address : String
  phone : String
  website : String
  website_status : String
  keyword : String
  location : String
  scraped_at : String
  rating : String
  votes : String
deriving DecidableEq

/-- The duplicate lookup of `save_justdial_data`. -/
def jdExists (t : List JDRow) (n a : String) : Bool :=
  t.any fun r => r.name == n && r.address == a

/-- `MapsScraperGUI.save_justdial_data`, restricted to its table
effect. -/
def save_justdial_data (kw loc : String) (t : List JDRow) (d : JDData) :
    List JDRow × Bool × String :=
  if jdExists t d.name d.address then
    (t, false, "Skipped duplicate: " ++ d.name)
  else
    (t ++ [⟨d.id, d.name, d.address, d.phone, d.website, d.website_status,
        kw, loc, d.scraped_at, d.rating, d.votes⟩],
      true, "Saved: " ++ d.name)

/-- The dedup keys of a maps table, in row order. -/
def mapsKeys (t : List MapsRow) : List (String × String) :=
  t.map fun r => (r.name, r.address)

/-- The dedup keys of a justdial table, in row order. -/
def jdKeys (t : List JDRow) : List (String × String) :=
  t.map fun r => (r.name, r.address)

/-- A whole maps-mode session: fold the per-record save over the
sequence of extracted records. -/
def runMapsSaves (kw loc ts : String) (t : List MapsRow)
    (ds : List PlaceData) : List MapsRow :=
  ds.foldl (fun acc d => (got_place_save kw loc ts acc d).1) t

/-- A whole snapshot-mode session: fold the per-record save over the
emitted records. -/
def runJDSaves (kw loc : String) (t : List JDRow)
    (ds : List JDData) : List JDRow :=
  ds.foldl (fun acc d => (save_justdial_data kw loc acc d).1) t

theorem mapsExists_iff (t : List MapsRow) (n a : String) :
    mapsExists t n a = true ↔ (n, a) ∈ mapsKeys t := by
  simp only [mapsExists, List.any_eq_true, Bool.and_eq_true, beq_iff_eq,
    mapsKeys, List.mem_map]
  constructor
  · rintro ⟨r, hr, rfl, rfl⟩
    exact ⟨r, hr, rfl⟩
  · rintro ⟨r, hr, h⟩
    obtain ⟨h1, h2⟩ := Prod.mk.injEq .. ▸ h
    exact ⟨r, hr, h1, h2⟩

theorem jdExists_iff (t : List JDRow) (n a : String) :
    jdExists t n a = true ↔ (n, a) ∈ jdKeys t := by
  simp only [jdExists, List.any_eq_true, Bool.and_eq_true, beq_iff_eq,
    jdKeys, List.mem_map]
  constructor
  · rintro ⟨r, hr, rfl, rfl⟩
    exact ⟨r, hr, rfl⟩
  · rintro ⟨r, hr, h⟩
    obtain ⟨h1, h2⟩ := Prod.mk.injEq .. ▸ h
    exact ⟨r, hr, h1, h2⟩

theorem got_place_save_preserves (kw loc ts : String) (t : List MapsRow)
    (d : PlaceData) (h : (mapsKeys t).Nodup) :
    (mapsKeys (got_place_save kw loc ts t d).1).Nodup := by
  unfold got_place_save
  by_cases he : mapsExists t d.name d.address
  · simp [he, h]
  · have hne : (d.name, d.address) ∉ mapsKeys t := fun hm =>
      he ((mapsExists_iff t d.name d.address).mpr hm)
    simp only [he, if_false, Bool.false_eq_true]
    simp only [mapsKeys, List.map_append, List.map_cons, List.map_nil]
    rw [List.nodup_append]
    refine ⟨h, List.nodup_singleton _, ?_⟩
    intro x hx hx1
    rw [List.mem_singleton] at hx1
    subst hx1
    exact hne hx

theorem save_justdial_preserves (kw loc : String) (t : List JDRow)
    (d : JDData) (h : (jdKeys t).Nodup) :
    (jdKeys (save_justdial_data kw loc t d).1).Nodup := by
  unfold save_justdial_data
  by_cases he : jdExists t d.name d.address
  · simp [he, h]
  · have hne : (d.name, d.address) ∉ jdKeys t := fun hm =>
      he ((jdExists_iff t d.name d.address).mpr hm)
    simp only [he, if_false, Bool.false_eq_true]
    simp only [jdKeys, List.map_append, List.map_cons, List.map_nil]
    rw [List.nodup_append]
    refine ⟨h, List.nodup_singleton _, ?_⟩
    intro x hx hx1
    rw [List.mem_singleton] at hx1
    subst hx1
    exact hne hx

theorem runMapsSaves_preserves (kw loc ts : String) (ds : List PlaceData) :
    ∀ t : List MapsRow, (mapsKeys t).Nodup →
      (mapsKeys (runMapsSaves kw loc ts t ds)).Nodup := by
  induction ds with
  | nil => intro t h; exact h
  | cons d ds ih =>
    intro t h
    exact ih _ (got_place_save_preserves kw loc ts t d h)

theorem runJDSaves_preserves (kw loc : String) (ds : List JDData) :
    ∀ t : List JDRow, (jdKeys t).Nodup →
      (jdKeys (runJDSaves kw loc t ds)).Nodup := by
  induction ds with
  | nil => intro t h; exact h
  | cons d ds ih =>
    intro t h
    exact ih _ (save_justdial_preserves kw loc t d h)

/-- Claim C1: in both modes, for every sequence of record saves applied
to one query's table starting from its creation, no two persisted rows
share the same `(name, address)` pair; and saving a record whose
`(name, address)` already exists leaves the table unchanged, performs no
insert, and logs the skip line rather than the save line. -/
theorem C1_dedup_invariant :
    (∀ kw loc ts : String, ∀ ds : List PlaceData,
      (mapsKeys (runMapsSaves kw loc ts [] ds)).Nodup) ∧
    (∀ kw loc ts : String, ∀ t : List MapsRow, ∀ d : PlaceData,
      mapsExists t d.name d.address = true →
      got_place_save kw loc ts t d = (t, false, "Skipped duplicate: " ++ d.name)) ∧
    (∀ kw loc : String, ∀ ds : List JDData,
      (jdKeys (runJDSaves kw loc [] ds)).Nodup) ∧
    (∀ kw loc : String, ∀ t : List JDRow, ∀ d : JDData,
      jdExists t d.name d.address = true →
      save_justdial_data kw loc t d = (t, false, "Skipped duplicate: " ++ d.name)) := by
  refine ⟨?_, ?_, ?_, ?_⟩
  · intro kw loc ts ds
    exact runMapsSaves_preserves kw loc ts ds [] (by simp [mapsKeys])
  · intro kw loc ts t d h
    simp [got_place_save, h]
  · intro kw loc ds
    exact runJDSaves_preserves kw loc ds [] (by simp [jdKeys])
  · intro kw loc t d h
    simp [save_justdial_data, h]

/-- Witness for C1 at concrete inputs: re-saving the record
`{name := "Joes Cafe", address := "MG Road"}` into a table already
holding it is a skip that leaves the table unchanged, and a session that
feeds the same record twice from an empty table keeps the key list
duplicate-free. -/
theorem C1_dedup_witness :
    got_place_save "Cafes" "Pune" "t0"
        [⟨"Joes Cafe", "MG Road", "", "", "Cafes", "Pune", "t0"⟩]
        ⟨"Joes Cafe", "MG Road", "", ""⟩ =
      ([⟨"Joes Cafe", "MG Road", "", "", "Cafes", "Pune", "t0"⟩], false,
        "Skipped duplicate: " ++ "Joes Cafe") ∧
    (mapsKeys (runMapsSaves "Cafes" "Pune" "t0" []
        [⟨"Joes Cafe", "MG Road", "", ""⟩,
         ⟨"Joes Cafe", "MG Road", "", ""⟩])).Nodup ∧
    save_justdial_data "Cafes" "Pune"
        [⟨"id0", "Joes Cafe", "MG Road", "", "", "Unknown", "N/A", "N/A", "t0",
          "Cafes", "Pune"⟩]
        ⟨"id1", "Joes Cafe", "MG Road", "", "", "Unknown", "N/A", "N/A", "t1"⟩ =
      ([⟨"id0", "Joes Cafe", "MG Road", "", "", "Unknown", "N/A", "N/A", "t0",
          "Cafes", "Pune"⟩], false, "Skipped duplicate: " ++ "Joes Cafe") :=
  ⟨C1_dedup_invariant.2.1 "Cafes" "Pune" "t0" _ _ (by decide),
   C1_dedup_invariant.1 "Cafes" "Pune" "t0" _,
   C1_dedup_invariant.2.2.2 "Cafes" "Pune" _ _ (by decide)⟩

/-! ## Sequential Mode (maps crawl cursor)

`MapsScraperGUI` keeps the session in the fields `links`, `links_index`,
`scraping` and `_next_action`; `_got_place` is additionally the only
method that writes rows and bumps the cursor.  `MapsSession` gathers
exactly those fields (the table standing for the rows of the current
query's table). -/

/-- The Sequential-Mode session fields of `MapsScraperGUI`. -/
structure MapsSession where
  links : List String
  links_index : Nat
  scraping : Bool
  next_action_set : Bool
  table : List MapsRow
deriving DecidableEq

/-- `MapsScraperGUI._got_links`: cap the collected hrefs at the
configured maximum (`self.links = hrefs[:max_links]`). -/
def got_links (hrefs : List String) (max_links : Nat) : List String :=
  hrefs.take max_links

/-- The chain `_process_next_link → load → _extract_place → _got_place →
_process_next_link …`, flattened into the sequence of visited targets
and the progress values emitted by `_got_place`
(`int((self.links_index/len(self.links))*100)` after the increment).
Each visited target stands for one load-extract-save cycle; the chain
ends when `links_index` reaches `len(links)`. -/
def seqLoop (links : List String) (idx : Nat) : List String × List Nat :=
  if h : idx < links.length then
    let rest := seqLoop links (idx + 1)
    (links.getD idx "" :: rest.1, 100 * (idx + 1) / links.length :: rest.2)
  else ([], [])
termination_by links.length - idx
decreasing_by omega

/-- Claim C3: with collected hrefs `[A, B, C]` and a cap of 2, the
collected target list is `[A, B]`, exactly two extraction-and-store
cycles run, visiting `A` then `B` with emitted progress `50` then `100`,
and `C` is never loaded. -/
theorem C3_sequential_cap_two (A B C : String) (hCA : C ≠ A) (hCB : C ≠ B) :
    got_links [A, B, C] 2 = [A, B] ∧
    seqLoop (got_links [A, B, C] 2) 0 = ([A, B], [50, 100]) ∧
    C ∉ (seqLoop (got_links [A, B, C] 2) 0).1 := by
  have h1 : got_links [A, B, C] 2 = [A, B] := rfl
  have e2 : seqLoop [A, B] 2 = ([], []) := by
    rw [seqLoop]
    simp
  have e1 : seqLoop [A, B] 1 = ([B], [100]) := by
    rw [seqLoop]
    simp [e2]
  have e0 : seqLoop [A, B] 0 = ([A, B], [50, 100]) := by
    rw [seqLoop]
    simp [e1]
  refine ⟨h1, by rw [h1, e0], ?_⟩
  rw [h1, e0]
  simp [hCA, hCB]

/-- Witness for C3 at concrete distinct targets. -/
theorem C3_sequential_witness :
    got_links ["A", "B", "C"] 2 = ["A", "B"] ∧
    seqLoop (got_links ["A", "B", "C"] 2) 0 = (["A", "B"], [50, 100]) ∧
    "C" ∉ (seqLoop (got_links ["A", "B", "C"] 2) 0).1 :=
  C3_sequential_cap_two "A" "B" "C" (by decide) (by decide)

/-- What `MapsScraperGUI._on_load_finished` does when the page renderer
reports completion: schedule the pending extraction after 600 ms, or
nothing at all. -/
inductive LoadedAction where
  | scheduleExtract (delayMs : Nat)
  | doNothing
deriving DecidableEq

/-- `MapsScraperGUI._on_load_finished(ok)`:
`if ok and self._next_action: QTimer.singleShot(600, self._next_action)`.
No field is written on either branch; on `ok = false` nothing is
scheduled either. -/
def on_load_finished (ok : Bool) (st : MapsSession) :
    MapsSession × LoadedAction :=
  if ok && st.next_action_set then (st, .scheduleExtract 600)
  else (st, .doNothing)

/-- A session mid-crawl: target `B` (index 1) of three links is the one
whose page load just completed, and an extraction is pending. -/
def c4State : MapsSession :=
  { links := ["A", "B", "C"], links_index := 1, scraping := true,
    next_action_set := true, table := [] }

/-- Claim C4, counterexample: when the load callback delivers
`ok = false` for the current target, the code does not advance the
cursor and does not continue with the next target — `_on_load_finished`
schedules nothing and leaves every session field (including
`links_index`) unchanged, so the crawl stalls rather than skipping to
the next target. -/
theorem C4_counterexample :
    on_load_finished false c4State = (c4State, .doNothing) ∧
    (on_load_finished false c4State).1.links_index ≠ c4State.links_index + 1 :=
  ⟨rfl, by decide⟩

/-- Claim C4 as amended: on `ok = false` the failed target's record is
indeed skipped — no extraction is scheduled and no store write happens —
but the cursor does not advance and no further page load is scheduled:
the session state is returned unchanged with no follow-up action, so the
crawl stalls instead of continuing with the next target
(`links_index` is bumped only inside `_got_place`, which is reachable
only through the extraction scheduled on the `ok ∧ _next_action`
branch). -/
theorem C4_amended_failure_stalls :
    ∀ st : MapsSession, on_load_finished false st = (st, .doNothing) := by
  intro st
  rfl

/-- Outcome of `MapsScraperGUI.start_scrape`. -/
inductive StartOutcome where
  | warn (title msg : String)
  | begun
deriving DecidableEq

/-- `MapsScraperGUI.start_scrape`: with no collected links, show the
"No links" message box and return before touching any state; otherwise
set `scraping`, reset the cursor and begin processing. -/
def start_scrape (st : MapsSession) : MapsSession × StartOutcome :=
  if st.links.isEmpty then (st, .warn "No links" "Collect links first.")
  else ({ st with scraping := true, links_index := 0 }, .begun)

/-- Claim C7: starting a Sequential-Mode scrape with an empty collected
target list is rejected with the "No links" signal, and the whole
session state — targets, cursor index, running flag, table — is returned
unchanged; since the outcome is not `begun`, `_process_next_link` is
never invoked, so no page load and no store write occur. -/
theorem C7_empty_targets_rejected :
    ∀ st : MapsSession, st.links = [] →
      start_scrape st = (st, .warn "No links" "Collect links first.") := by
  intro st h
  simp [start_scrape, h]

/-- Witness for C7 at a concrete idle session with no collected links. -/
theorem C7_empty_targets_witness :
    start_scrape
        { links := [], links_index := 0, scraping := false,
          next_action_set := false, table := [] } =
      ({ links := [], links_index := 0, scraping := false,
          next_action_set := false, table := [] },
        .warn "No links" "Collect links first.") :=
  C7_empty_targets_rejected _ rfl

/-- What one call of `MapsScraperGUI._process_next_link` does next. -/
inductive NextStep where
  | load (url : String)
  | finishedSession
deriving DecidableEq

/-- `MapsScraperGUI._process_next_link`: end the session when the cursor
has exhausted the links, otherwise set `_next_action` and load the
current link.  The `scraping` flag is not consulted. -/
def process_next_link (st : MapsSession) : MapsSession × NextStep :=
  if st.links.length ≤ st.links_index then
    ({ st with scraping := false }, .finishedSession)
  else
    ({ st with next_action_set := true },
      .load (st.links.getD st.links_index ""))

/-- The session right after target `B` of `[A, B, C]` was processed
(cursor already bumped to 2) with the running flag cleared externally. -/
def c8State : MapsSession :=
  { links := ["A", "B", "C"], links_index := 2, scraping := false,
    next_action_set := false, table := [] }

/-- Claim C8, counterexample: with `scraping = false` set while target
`B` of `[A, B, C]` was being processed, the next advance does not
short-circuit — `_process_next_link` checks only cursor exhaustion, so
target `C` is still loaded. -/
theorem C8_counterexample :
    c8State.scraping = false ∧
    (process_next_link c8State).2 = .load "C" :=
  ⟨rfl, by decide⟩

/-- Claim C8 as amended: clearing the running flag mid-run does not stop
the Sequential-Mode crawl.  `_process_next_link` never consults
`scraping`: whenever the cursor has not exhausted the links it loads the
next target regardless of the flag (and leaves the flag as it was); the
session ends only when `links_index` reaches the end of the list.  (The
source in fact provides no stop operation for this mode that could clear
the flag mid-run.) -/
theorem C8_amended_no_running_check :
    ∀ st : MapsSession, st.links_index < st.links.length →
      (process_next_link st).2 = .load (st.links.getD st.links_index "") ∧
      (process_next_link st).1.scraping = st.scraping := by
  intro st h
  have hne : ¬ st.links.length ≤ st.links_index := Nat.not_le.mpr h
  simp [process_next_link, hne]

/-- Witness for the amended C8 at the concrete stopped-mid-run session:
target `C` is loaded even though `scraping = false`. -/
theorem C8_amended_witness :
    (process_next_link c8State).2 =
      .load (c8State.links.getD c8State.links_index "") ∧
    (process_next_link c8State).1.scraping = c8State.scraping :=
  C8_amended_no_running_check c8State (by decide)

/-! ## Snapshot Mode (justdial bulk capture)

`JustDialScraper.run` evaluates one page script whose result is a list
of raw listing records; the script itself discards listings without a
usable name (`if (!name || name === "N/A") return null`) and
page-locally dedups by visible name.  The `process_results` callback
then iterates the returned batch under the cap and the asynchronously
flipped `_is_running` flag; the flag is modelled by the sequence of
values it is observed to have at each loop check. -/

/-- One DOM listing as the extraction script sees it: the raw field
strings its selectors produce (`"N/A"` when a selector finds nothing). -/
structure Listing where
  name : String
  address : String
  phone : String
  website : String
  website_status : String
  rating : String
  votes : String
deriving DecidableEq

/-- `extractListingData` from the page script, reduced to its
name-gating: it returns `null` when no name was found
(`if (!name || name === "N/A") return null;`). -/
def extractListingData (l : Listing) : Option Listing :=
  if l.name = "" ∨ l.name = "N/A" then none else some l

/-- The page-level collection loop of the script: keep each non-null
extraction whose name has not been seen before
(`if (data && data.name !== "N/A" && !seenNames.has(data.name))`). -/
def collectListings : List Listing → List String → List Listing
  | [], _ => []
  | l :: rest, seen =>
    match extractListingData l with
    | none => collectListings rest seen
    | some d =>
      if d.name ∈ seen then collectListings rest seen
      else d :: collectListings rest (d.name :: seen)

/-- The full result of the snapshot-mode extraction script on a page
holding the given listings. -/
def jsExtractResults (listings : List Listing) : List Listing :=
  collectListings listings []

/-- The `for i, data in enumerate(result)` loop of `process_results`:
break when `not self._is_running or i >= self.max_listings`, otherwise
emit the record on `data_signal` and
`int(((i + 1) / min(len(result), self.max_listings)) * 100)` on
`progress_signal`.  `len` is `len(result)` of the enclosing call;
`running i` is the value `_is_running` is observed to have at the check
of iteration `i`.  Returns the emitted records and progress values in
order. -/
def runLoop (len maxL : Nat) (running : Nat → Bool) :
    List Listing → Nat → List Listing × List Nat
  | [], _ => ([], [])
  | d :: rest, i =>
    if running i = false ∨ maxL ≤ i then ([], [])
    else
      (d :: (runLoop len maxL running rest (i + 1)).1,
        100 * (i + 1) / min len maxL :: (runLoop len maxL running rest (i + 1)).2)

/-- Every record the page script hands to `process_results` has a
usable name: not empty and not `"N/A"`. -/
theorem collectListings_name_ok :
    ∀ (listings : List Listing) (seen : List String),
      ∀ r ∈ collectListings listings seen, r.name ≠ "" ∧ r.name ≠ "N/A" := by
  intro listings
  induction listings with
  | nil =>
    intro seen r hr
    simp [collectListings] at hr
  | cons l rest ih =>
    intro seen r hr
    unfold collectListings extractListingData at hr
    by_cases hname : l.name = "" ∨ l.name = "N/A"
    · rw [if_pos hname] at hr
      exact ih seen r hr
    · rw [if_neg hname] at hr
      dsimp only at hr
      push_neg at hname
      by_cases hseen : l.name ∈ seen
      · rw [if_pos hseen] at hr
        exact ih seen r hr
      · rw [if_neg hseen] at hr
        rcases List.mem_cons.mp hr with rfl | hr2
        · exact hname
        · exact ih _ r hr2

/-- A raw listing whose non-name fields are the script defaults. -/
def mkListing (n a : String) : Listing :=
  ⟨n, a, "N/A", "N/A", "Unknown", "N/A", "N/A"⟩

/-- The concrete five-listing page of the claim: record 3 has name
`"N/A"`. -/
def batch5 : List Listing :=
  [mkListing "n1" "a1", mkListing "n2" "a2", mkListing "N/A" "a3",
   mkListing "n4" "a4", mkListing "n5" "a5"]

/-- `data_with_meta` as built in `process_results`: the emitted payload
adds a fresh id and a capture timestamp to the raw fields. -/
def toJDData (id ts : String) (l : Listing) : JDData :=
  ⟨id, l.name, l.address, l.phone, l.website, l.website_status,
    l.rating, l.votes, ts⟩

/-- Claim C5, counterexample: the discard rule does not apply in maps
mode — `_got_place` persists a record whose name is empty: from an empty
table the save inserts the row and reports it as saved. -/
theorem C5_counterexample :
    (got_place_save "k" "l" "t" [] ⟨"", "addr", "", ""⟩).2.1 = true ∧
    (got_place_save "k" "l" "t" [] ⟨"", "addr", "", ""⟩).1 =
      [⟨"", "addr", "", "", "k", "l", "t"⟩] :=
  ⟨by decide, by decide⟩

/-- Claim C5 as amended: in Snapshot Mode the discard of empty/"N/A"
names happens in the extraction script, so no such record ever reaches
`process_results` or the store — for the five-listing batch whose third
record is named `"N/A"` exactly four records are extracted and exactly
four rows are persisted.  In maps (Sequential) mode, however, no
name-based discard exists: `_got_place` inserts any record whose
`(name, address)` key is new, an empty name included. -/
theorem C5_amended_name_discard :
    (∀ listings : List Listing, ∀ r ∈ jsExtractResults listings,
      r.name ≠ "" ∧ r.name ≠ "N/A") ∧
    jsExtractResults batch5 =
      [mkListing "n1" "a1", mkListing "n2" "a2", mkListing "n4" "a4",
       mkListing "n5" "a5"] ∧
    (runJDSaves "k" "l" []
        (((runLoop (jsExtractResults batch5).length 30 (fun _ => true)
            (jsExtractResults batch5) 0).1).map (toJDData "uuid" "ts"))).length
      = 4 ∧
    (∀ kw loc ts : String, ∀ t : List MapsRow, ∀ d : PlaceData,
      mapsExists t d.name d.address = false →
      (got_place_save kw loc ts t d).2.1 = true) := by
  refine ⟨fun listings => collectListings_name_ok listings [], by decide,
    by decide, ?_⟩
  intro kw loc ts t d h
  simp [got_place_save, h]

/-- Witness for the amended C5: the first extracted record of the
concrete batch has a usable name, and a maps-mode save into an empty
table does insert. -/
theorem C5_amended_witness :
    ((mkListing "n1" "a1").name ≠ "" ∧ (mkListing "n1" "a1").name ≠ "N/A") ∧
    (got_place_save "kw" "loc" "ts" [] ⟨"", "x", "", ""⟩).2.1 = true :=
  ⟨C5_amended_name_discard.1 batch5 (mkListing "n1" "a1") (by decide),
   C5_amended_name_discard.2.2.2 "kw" "loc" "ts" [] ⟨"", "x", "", ""⟩
     (by decide)⟩

/-- A concrete two-listing batch. -/
def batch2 : List Listing := [mkListing "n1" "a1", mkListing "n2" "a2"]

/-- A cancellation schedule: `_is_running` is observed `true` at the
check of item 0 and `false` from the check of item 1 on (the user
pressed stop while item 0 was being handled). -/
def cancelAfterOne : Nat → Bool := fun i => i == 0

/-- The observable outcome of one `JustDialScraper.run` invocation: the
status lines emitted on `status_signal`, the values emitted on
`progress_signal`, the records emitted on `data_signal`, and how many
times `finished_signal` fired. -/
structure JDOutcome where
  statuses : List String
  progresses : List Nat
  emitted : List Listing
  finishedCount : Nat
deriving DecidableEq

/-- The `process_results` callback of `JustDialScraper.run`: an empty or
non-list script result takes the early-return path (one status line, one
`finished_signal`); otherwise the batch is iterated under the cap and
the running flag, and the closing summary line reports
`min(len(result), self.max_listings)` — not the number of records the
loop actually processed. -/
def process_results (result : List Listing) (maxL : Nat)
    (running : Nat → Bool) : JDOutcome :=
  if result.isEmpty then
    { statuses := ["No listings found or invalid page structure."],
      progresses := [], emitted := [], finishedCount := 1 }
  else
    { statuses :=
        ["Found " ++ toString result.length ++ " listings. Processing...",
          "Finished processing " ++ toString (min result.length maxL) ++
            " listings."],
      progresses := (runLoop result.length maxL running result 0).2,
      emitted := (runLoop result.length maxL running result 0).1,
      finishedCount := 1 }

/-- `JustDialScraper.run` as observed from outside: the opening status
line, then either the `except` path (when the script dispatch raises
`e`) or the `process_results` callback on the script's result. -/
def jdRun (exc : Option String) (result : List Listing) (maxL : Nat)
    (running : Nat → Bool) : JDOutcome :=
  match exc with
  | some e =>
    { statuses := ["Starting JustDial scraping from embedded browser...",
        "Error in JustDial scraper: " ++ e],
      progresses := [], emitted := [], finishedCount := 1 }
  | none =>
    { process_results result maxL running with
      statuses := "Starting JustDial scraping from embedded browser..." ::
        (process_results result maxL running).statuses }

/-- Claim C9, counterexample: in the cancelled two-item run only one
record is processed, yet the final status line says
"Finished processing 2 listings." — the line before `finished_signal`
reports `min(batchSize, cap)`, not the count of records processed. -/
theorem C9_counterexample :
    (jdRun none batch2 2 cancelAfterOne).emitted.length = 1 ∧
    (jdRun none batch2 2 cancelAfterOne).statuses.getLast? =
      some "Finished processing 2 listings." :=
  ⟨by decide, by decide⟩

/-- Claim C9 as amended: every Snapshot-Mode run — batch exhausted, cap
reached, cancellation, empty/invalid batch, or an exception during
dispatch — emits the completion signal exactly once, preceded by a final
status line; on the normal path that line reports
`min(batchSize, cap)` as the count, which equals the number of records
processed only when the loop was not halted early by cancellation, and
on the empty/invalid path it is a "no listings" message rather than a
count. -/
theorem C9_amended_single_completion :
    ∀ (exc : Option String) (result : List Listing) (maxL : Nat)
      (running : Nat → Bool),
      (jdRun exc result maxL running).finishedCount = 1 ∧
      (jdRun exc result maxL running).statuses ≠ [] ∧
      (exc = none → result ≠ [] →
        (jdRun exc result maxL running).statuses.getLast? =
          some ("Finished processing " ++ toString (min result.length maxL) ++
            " listings.")) := by
  intro exc result maxL running
  cases exc with
  | some e =>
    refine ⟨rfl, by simp [jdRun], ?_⟩
    intro h
    exact absurd h (by simp)
  | none =>
    by_cases hres : result.isEmpty
    · refine ⟨by simp [jdRun, process_results, hres], ?_, ?_⟩
      · simp [jdRun, process_results, hres]
      · intro _ hne
        exact absurd (List.isEmpty_iff.mp hres) hne
    · refine ⟨by simp [jdRun, process_results, hres], ?_, ?_⟩
      · simp [jdRun, process_results, hres]
      · intro _ _
        simp [jdRun, process_results, hres]

/-- Witness for the amended C9 at the concrete un-cancelled two-item
run: one completion signal, a non-empty status stream, and the closing
summary line. -/
theorem C9_amended_witness :
    (jdRun none batch2 2 (fun _ => true)).finishedCount = 1 ∧
    (jdRun none batch2 2 (fun _ => true)).statuses ≠ [] ∧
    (jdRun none batch2 2 (fun _ => true)).statuses.getLast? =
      some ("Finished processing " ++ toString (min batch2.length 2) ++
        " listings.") := by
  obtain ⟨h1, h2, h3⟩ :=
    C9_amended_single_completion none batch2 2 (fun _ => true)
  exact ⟨h1, h2, h3 rfl (by decide)⟩
